import Mathlib

/-!
Shallow embedding of the mider-bot audio synthesis pipeline
(`src/audiosynth.ts` and the timeline assembler / WAV container module),
with theorems settling the frozen claims about it.

Modelling conventions:
* JavaScript numbers that hold exact values in the executions under study
  are modelled as `ℚ` (rationals); integer-valued engine settings as `ℤ`.
* Buffers are `List ℕ`, one entry per byte.
* JavaScript's `x | 0` (ToInt32: truncate toward zero, then wrap into
  [-2^31, 2^31)) is modelled explicitly by `toInt32Q`.
* `Buffer.writeUInt32LE` / `writeUInt16LE` throw `ERR_OUT_OF_RANGE` when the
  value is outside the unsigned range, so the header builders return `Option`.
* `Math.sin` and `Math.pow` (with non-integer exponent) have no exact rational
  meaning; they are carried as abstract function parameters (`sin`, `qpow`),
  which the claims never need to evaluate.
-/

/-- Bytes of a buffer, one natural number (0..255) per byte. -/
abbrev Bytes := List ℕ

/-- Truncation toward zero of a rational, as JavaScript does before `| 0`. -/
def qtrunc (q : ℚ) : ℤ := if 0 ≤ q then ⌊q⌋ else ⌈q⌉

/-- Wrap an integer into the signed 32-bit range [-2^31, 2^31). -/
def wrap32 (n : ℤ) : ℤ := (n + 2147483648) % 4294967296 - 2147483648

/-- Wrap an integer into the signed 16-bit range [-2^15, 2^15). -/
def wrap16 (n : ℤ) : ℤ := (n + 32768) % 65536 - 32768

/-- JavaScript `q | 0` on a (non-NaN, finite) number: ToInt32. -/
def toInt32Q (q : ℚ) : ℤ := wrap32 (qtrunc q)

/-- Little-endian bytes of an unsigned 32-bit value. -/
def u32le (v : ℕ) : List ℕ := [v % 256, v / 256 % 256, v / 65536 % 256, v / 16777216 % 256]

/-- Little-endian bytes of an unsigned 16-bit value. -/
def u16le (v : ℕ) : List ℕ := [v % 256, v / 256 % 256]

/-- Overwrite `bs.length` bytes of `buf` starting at byte offset `off`. -/
def writeAt (buf : Bytes) (off : ℕ) (bs : Bytes) : Bytes :=
  buf.take off ++ bs ++ buf.drop (off + bs.length)

/-- Node `buffer.writeUInt32LE(v, off)`: throws `ERR_OUT_OF_RANGE` unless
`0 ≤ v ≤ 2^32 - 1`. -/
def writeU32 (buf : Bytes) (v : ℤ) (off : ℕ) : Option Bytes :=
  if 0 ≤ v ∧ v ≤ 4294967295 then some (writeAt buf off (u32le v.toNat)) else none

/-- Node `buffer.writeUInt16LE(v, off)`: throws `ERR_OUT_OF_RANGE` unless
`0 ≤ v ≤ 2^16 - 1`. -/
def writeU16 (buf : Bytes) (v : ℤ) (off : ℕ) : Option Bytes :=
  if 0 ≤ v ∧ v ≤ 65535 then some (writeAt buf off (u16le v.toNat)) else none

/-- ASCII bytes of a string literal, as `buffer.write(s, off)` stores them. -/
def strBytes (s : String) : Bytes := s.data.map Char.toNat

/-- Node `buffer.write(s, off)` for an ASCII string. -/
def bufWrite (buf : Bytes) (s : String) (off : ℕ) : Bytes := writeAt buf off (strBytes s)

/-- Little-endian decoding of four bytes of `b` starting at `off`
(out-of-range reads give 0). -/
def readU32LE (b : Bytes) (off : ℕ) : ℕ :=
  b.getD off 0 + 256 * b.getD (off + 1) 0 + 65536 * b.getD (off + 2) 0 +
    16777216 * b.getD (off + 3) 0

/-- The `createWavHeader(dataLength)` function of the assembler module, with its
default parameters `sampleRate = 44100`, `channels = 1`, `bitsPerSample = 16`:
a 44-byte RIFF/WAVE/fmt/data header.  `none` models the `ERR_OUT_OF_RANGE`
throw from `writeUInt32LE`. -/
def createWavHeader (dataLength : ℕ) : Option Bytes := do
  let byteRate : ℤ := 44100 * 1 * 16 / 8
  let blockAlign : ℤ := 1 * 16 / 8
  let b0 := List.replicate 44 (0 : ℕ)
  let b1 := bufWrite b0 "RIFF" 0
  let b2 ← writeU32 b1 (36 + (dataLength : ℤ)) 4
  let b3 := bufWrite b2 "WAVE" 8
  let b4 := bufWrite b3 "fmt " 12
  let b5 ← writeU32 b4 16 16
  let b6 ← writeU16 b5 1 20
  let b7 ← writeU16 b6 1 22
  let b8 ← writeU32 b7 44100 24
  let b9 ← writeU32 b8 byteRate 28
  let b10 ← writeU16 b9 blockAlign 32
  let b11 ← writeU16 b10 16 34
  let b12 := bufWrite b11 "data" 36
  writeU32 b12 (dataLength : ℤ) 40

/-- The assembler module's `extractPCM(wav) = wav.slice(44)`: strip the
44-byte WAV header unconditionally. -/
def extractPCM (wav : Bytes) : Bytes := wav.drop 44

/-- The engine's base-frequency table `_notes` (reference octave 4); an unknown
note name gives `none` (an undefined JavaScript property lookup). -/
def notesTable : String → Option ℚ
  | "C" => some (26163 / 100)
  | "C#" => some (27718 / 100)
  | "D" => some (29366 / 100)
  | "D#" => some (31113 / 100)
  | "E" => some (32963 / 100)
  | "F" => some (34923 / 100)
  | "F#" => some (36999 / 100)
  | "G" => some 392
  | "G#" => some (41530 / 100)
  | "A" => some 440
  | "A#" => some (46616 / 100)
  | "B" => some (49388 / 100)
  | _ => none

/-- Render cache, keyed as `_fileCache[soundIndex][octave-1][note][duration]`.
JavaScript stores this as nested arrays/objects; as a lookup structure it is a
partial map from the 4-tuple key to a cached WAV buffer. -/
abbrev Cache := ℕ → ℤ → String → ℚ → Option Bytes

/-- An empty cache (`_clearCache` rebuilds `_fileCache` with no entries below
the per-sound octave lists). -/
def emptyCache : Cache := fun _ _ _ _ => none

/-- Store one rendered buffer under its 4-tuple key. -/
def cacheStore (c : Cache) (sid : ℕ) (oi : ℤ) (note : String) (d : ℚ) (b : Bytes) : Cache :=
  fun sid' oi' note' d' =>
    if sid' = sid ∧ oi' = oi ∧ note' = note ∧ d' = d then some b else c sid' oi' note' d'

/-- Mutable engine state of `AudioSynth`: `_sampleRate`, `_volume`, `_fileCache`.
(`_temp` is reset at the start of every `generate` call and never read across
calls, so it is threaded locally through a render instead.) -/
structure SynthState where
  sampleRate : ℤ
  volume : ℤ
  cache : Cache

/-- Initial engine state: `_sampleRate = 44100`, `_volume = 32767`, empty cache. -/
def initState : SynthState := ⟨44100, 32767, emptyCache⟩

/-- Rounding as JavaScript `Math.round`: half-up. -/
def qround (q : ℚ) : ℤ := ⌊q + 1 / 2⌋

/-- `setSampleRate(r)`: `this._sampleRate = Math.max(Math.min(r | 0, 44100), 4000)`,
clear the cache, and return the rate actually set. -/
def setSampleRate (st : SynthState) (r : ℚ) : ℤ × SynthState :=
  let sr := max (min (toInt32Q r) 44100) 4000
  (sr, { st with sampleRate := sr, cache := emptyCache })

/-- `setVolume(v)`: clamp to [0,1], scale to 32767, round, clear the cache, and
return the internal volume actually set. -/
def setVolume (st : SynthState) (v : ℚ) : ℤ × SynthState :=
  let vol := qround (max 0 (min 1 v) * 32767)
  (vol, { st with volume := vol, cache := emptyCache })

/-- The data of a sound profile that the engine reads outside the wave
function: its name and the `attack` and `dampen` functions
(arguments: sampleRate, frequency, volume). -/
structure ProfileData where
  name : String
  attack : ℤ → ℚ → ℤ → ℚ
  dampen : ℤ → ℚ → ℤ → ℚ

/-- A wave function: arguments (i, sampleRate, frequency, volume) plus the
private scratch state `this._temp` (type `Vars`), returning the amplitude and
the updated scratch state.  Keeping the function abstract covers every
registered instrument, the stateful `acoustic` model included. -/
def WaveFn (Vars : Type) := ℕ → ℤ → ℚ → ℤ → Vars → ℚ × Vars

/-- A sound identifier: instrument name or numeric index. -/
def SoundID := String ⊕ ℕ

/-- `_findSound`: name lookup by `findIndex`, or an index that must be in
range; `none` stands for "`this._sounds[soundID]` is undefined". -/
def findSound (sounds : List ProfileData) : SoundID → Option ℕ
  | .inl name => sounds.findIdx? (fun s => s.name == name)
  | .inr idx => if idx < sounds.length then some idx else none

/-- Errors `generate` can throw. -/
inductive GenErr
  | invalidSound
  | invalidNote
  | rangeError
deriving DecidableEq

/-- Octave handling in `generate`: `Math.min(8, Math.max(1, octave | 0))`. -/
def clampOctave (octave : ℤ) : ℤ := min 8 (max 1 (wrap32 octave))

/-- Duration handling in `generate`: a falsy (zero) duration defaults to 2 s. -/
def defDuration (duration : ℚ) : ℚ := if duration = 0 then 2 else duration

/-- Frequency of a note: `baseFrequency * 2^(octave - 4)`. -/
def noteFreq (base : ℚ) (o : ℤ) : ℚ := base * 2 ^ (o - 4)

/-- Attack sample count `(sampleRate * attack) | 0`. -/
def attackSamples (s : ℤ) (attack : ℚ) : ℤ := toInt32Q ((s : ℚ) * attack)

/-- Decay sample count `(sampleRate * d) | 0`. -/
def decaySamples (s : ℤ) (d : ℚ) : ℤ := toInt32Q ((s : ℚ) * d)

/-- One 16-bit sample as two little-endian bytes (two's complement). -/
def i16bytes (v : ℤ) : Bytes := u16le (v.emod 65536).toNat

/-- The attack loop: for `i` in `[start, start+count)`,
`data[i] = (volume * (i / (sampleRate*attack)) * wave(i)) | 0` (an out-of-range
`Int16Array` write is silently dropped, as `List.set` drops it). -/
def attackPhase {Vars : Type} (wave : WaveFn Vars) (s : ℤ) (f : ℚ) (vol : ℤ) (attack : ℚ) :
    ℕ → ℕ → List ℤ → Vars → List ℤ × Vars
  | _, 0, data, vars => (data, vars)
  | i, n + 1, data, vars =>
    let r := wave i s f vol vars
    let val := (vol : ℚ) * ((i : ℚ) / ((s : ℚ) * attack)) * r.1
    attackPhase wave s f vol attack (i + 1) n (data.set i (wrap16 (toInt32Q val))) r.2

/-- The decay loop: for `i` in `[start, start+count)`,
`data[i] = (volume * pow(1 - (i-attackLen)/(sampleRate*(d-attack)), dampen) * wave(i)) | 0`,
with `Math.pow` carried as the abstract `qpow`. -/
def decayPhase {Vars : Type} (wave : WaveFn Vars) (qpow : ℚ → ℚ → ℚ) (s : ℤ) (f : ℚ)
    (vol : ℤ) (attack dampen d : ℚ) (attackLen : ℤ) :
    ℕ → ℕ → List ℤ → Vars → List ℤ × Vars
  | _, 0, data, vars => (data, vars)
  | i, n + 1, data, vars =>
    let r := wave i s f vol vars
    let val := (vol : ℚ) *
      qpow (1 - ((i : ℚ) - (attackLen : ℚ)) / ((s : ℚ) * (d - attack))) dampen * r.1
    decayPhase wave qpow s f vol attack dampen d attackLen (i + 1) n
      (data.set i (wrap16 (toInt32Q val))) r.2

/-- The header layout of `AudioSynth._createWav` (identical byte layout to
`createWavHeader`, but parameterized on the engine's sample rate; channels = 1
and bitsPerSample = 16 in the engine). -/
def wavHeader (dataLength : ℕ) (sampleRate : ℤ) (channels bitsPerSample : ℕ) : Option Bytes := do
  let b0 := List.replicate 44 (0 : ℕ)
  let b1 := bufWrite b0 "RIFF" 0
  let b2 ← writeU32 b1 (36 + (dataLength : ℤ)) 4
  let b3 := bufWrite b2 "WAVE" 8
  let b4 := bufWrite b3 "fmt " 12
  let b5 ← writeU32 b4 16 16
  let b6 ← writeU16 b5 1 20
  let b7 ← writeU16 b6 (channels : ℤ) 22
  let b8 ← writeU32 b7 sampleRate 24
  let b9 ← writeU32 b8 (sampleRate * (channels : ℤ) * ((bitsPerSample : ℤ) / 8)) 28
  let b10 ← writeU16 b9 ((channels : ℤ) * ((bitsPerSample : ℤ) / 8)) 32
  let b11 ← writeU16 b10 (bitsPerSample : ℤ) 34
  let b12 := bufWrite b11 "data" 36
  writeU32 b12 (dataLength : ℤ) 40

/-- The cache-miss body of `generate`: envelope lengths, the two sample loops,
16-bit PCM serialization, and the `_createWav` header.  `.error .rangeError`
models the `new ArrayBuffer(negative)` / `writeUInt32LE` out-of-range throws. -/
def renderNote {Vars : Type} (wave : WaveFn Vars) (v0 : Vars) (qpow : ℚ → ℚ → ℚ)
    (prof : ProfileData) (s vol : ℤ) (base : ℚ) (o : ℤ) (d : ℚ) : Except GenErr Bytes :=
  let frequency := noteFreq base o
  let attack := prof.attack s frequency vol
  let dampen := prof.dampen s frequency vol
  let attackLen := attackSamples s attack
  let decayLen := decaySamples s d
  let dataSize := decayLen * 2
  if dataSize < 0 then .error .rangeError
  else
    let data0 := List.replicate decayLen.toNat (0 : ℤ)
    let r1 := attackPhase wave s frequency vol attack 0 attackLen.toNat data0 v0
    let r2 := decayPhase wave qpow s frequency vol attack dampen d attackLen
      attackLen.toNat (decayLen - (attackLen.toNat : ℤ)).toNat r1.1 r1.2
    let pcm := r2.1.flatMap i16bytes
    match wavHeader pcm.length s 1 16 with
    | none => .error .rangeError
    | some h => .ok (h ++ pcm)

/-- `AudioSynth.generate(sound, note, octave, duration)`.  Mirrors the source
order: find the sound (else throw InvalidSound), reset `_temp` (threaded as
`v0`), clamp the octave and default the duration, validate the note name (else
throw InvalidNote), consult the cache (`[soundID][o-1][note][d]`) and return a
hit unchanged, otherwise render, wrap in a WAV header, store, and return.
Errors return the state as it is at the throw site. -/
def generate {Vars : Type} (waves : ℕ → WaveFn Vars) (v0 : Vars) (qpow : ℚ → ℚ → ℚ)
    (sounds : List ProfileData) (st : SynthState) (sound : SoundID) (note : String)
    (octave : ℤ) (duration : ℚ) : Except GenErr Bytes × SynthState :=
  match findSound sounds sound with
  | none => (.error .invalidSound, st)
  | some sid =>
    match sounds.get? sid with
    | none => (.error .invalidSound, st)
    | some prof =>
      let o := clampOctave octave
      let d := defDuration duration
      match notesTable note with
      | none => (.error .invalidNote, st)
      | some base =>
        match st.cache sid (o - 1) note d with
        | some cached => (.ok cached, st)
        | none =>
          match renderNote (waves sid) v0 qpow prof st.sampleRate st.volume base o d with
          | .error e => (.error e, st)
          | .ok wav => (.ok wav, { st with cache := cacheStore st.cache sid (o - 1) note d wav })

/-- A timeline note: pitch class, octave, duration (s), start time (s). -/
structure SynthNote where
  note : String
  octave : ℤ
  duration : ℚ
  time : ℚ

/-- Insert a note into a list already sorted by ascending `time`, before the
first note with an equal or later time (so earlier input order wins ties). -/
def insertByTime (x : SynthNote) : List SynthNote → List SynthNote
  | [] => [x]
  | m :: rest => if m.time < x.time then m :: insertByTime x rest else x :: m :: rest

/-- The assembler's `[...notes].sort((a, b) => a.time - b.time)`: a stable
ascending sort by start time (any two stable sorts by the same key agree, so
stable insertion sort models the ES2019 stable `Array.prototype.sort`). -/
def sortByTime : List SynthNote → List SynthNote
  | [] => []
  | x :: rest => insertByTime x (sortByTime rest)

/-- `generateSilence(seconds)`: `Math.floor(seconds * 44100)` zero-valued
16-bit samples, i.e. twice that many zero bytes. -/
def generateSilence (seconds : ℚ) : Bytes :=
  List.replicate ((⌊seconds * 44100⌋).toNat * 2) 0

/-- One iteration of the assembler loop: insert silence if the gap from the
running cursor to the note's start time is positive, append the note's PCM
(WAV header stripped), and advance the cursor to `time + duration`. -/
def assembleStep (gen : SynthNote → Bytes) (acc : List Bytes × ℚ) (n : SynthNote) :
    List Bytes × ℚ :=
  let gap := n.time - acc.2
  let bufs := if 0 < gap then acc.1 ++ [generateSilence gap] else acc.1
  (bufs ++ [extractPCM (gen n)], n.time + n.duration)

/-- The PCM body assembled by `synthNotesToWavBuffer`: sort by start time, walk
the timeline from cursor 0, and concatenate all fragments.  `gen` abstracts
`instrument.generate` (for fixed engine settings each note renders to a
buffer that depends only on the note, by the memoization theorems below). -/
def synthPCM (gen : SynthNote → Bytes) (notes : List SynthNote) : Bytes :=
  ((sortByTime notes).foldl (assembleStep gen) ([], 0)).1.flatten

/-- `synthNotesToWavBuffer`: the assembled PCM wrapped in a single
`createWavHeader(allPCM.length)` header. -/
def synthNotesToWavBuffer (gen : SynthNote → Bytes) (notes : List SynthNote) : Option Bytes :=
  let allPCM := synthPCM gen notes
  (createWavHeader allPCM.length).map (fun h => h ++ allPCM)

/-- Argument of the sine in the engine's initial modulation entry
`_mod[0] = (i, s, f, x) => Math.sin((2 * Math.PI) * (i / s) * f + x)`;
`pi` stands for the real π. -/
def modArgInit (pi i s f x : ℚ) : ℚ := 2 * pi * (i / s) * f + x

/-- Argument of the sine in the first loaded modulation function
(slot 1 of `this.modulate`): `Math.sin(2 * Math.PI * (i / s * f) + x)`. -/
def modArg1 (pi i s f x : ℚ) : ℚ := 2 * pi * (i / s * f) + x

/-- Argument of the sine in the second loaded modulation function
(slot 2): `Math.sin(4 * Math.PI * (i / s * f) + x)`. -/
def modArg2 (pi i s f x : ℚ) : ℚ := 4 * pi * (i / s * f) + x

/-- Argument of the sine in the third loaded modulation function
(slot 3): `Math.sin(8 * Math.PI * (i / s * f) + x)`. -/
def modArg3 (pi i s f x : ℚ) : ℚ := 8 * pi * (i / s * f) + x

/-- Argument of the sine in the fourth loaded modulation function
(slot 4): `Math.sin(0.5 * Math.PI * (i / s * f) + x)`. -/
def modArg4 (pi i s f x : ℚ) : ℚ := 1 / 2 * pi * (i / s * f) + x

/-- Argument of the sine in the fifth loaded modulation function
(slot 5): `Math.sin(0.25 * Math.PI * (i / s * f) + x)`. -/
def modArg5 (pi i s f x : ℚ) : ℚ := 1 / 4 * pi * (i / s * f) + x

/-- A pure modulation function shape: (i, s, f, x) to amplitude. -/
abbrev ModFn := ℚ → ℚ → ℚ → ℚ → ℚ

/-- The engine's `_mod` array after `loadModulationFunction`: the initial
fundamental at index 0, then the ten loaded entries (five full-amplitude, five
half-amplitude), exactly in load order.  `sin` abstracts `Math.sin` and `pi`
stands for π. -/
def modList (sin : ℚ → ℚ) (pi : ℚ) : List ModFn :=
  [fun i s f x => sin (modArgInit pi i s f x),
   fun i s f x => sin (modArg1 pi i s f x),
   fun i s f x => sin (modArg2 pi i s f x),
   fun i s f x => sin (modArg3 pi i s f x),
   fun i s f x => sin (modArg4 pi i s f x),
   fun i s f x => sin (modArg5 pi i s f x),
   fun i s f x => 1 / 2 * sin (modArg1 pi i s f x),
   fun i s f x => 1 / 2 * sin (modArg2 pi i s f x),
   fun i s f x => 1 / 2 * sin (modArg3 pi i s f x),
   fun i s f x => 1 / 2 * sin (modArg4 pi i s f x),
   fun i s f x => 1 / 2 * sin (modArg5 pi i s f x)]

/-- A modulation function that returns 0, as `getD` default (never reached for
the indices the profiles use). -/
def zeroMod : ModFn := fun _ _ _ _ => 0

/-- The piano profile's wave function:
`this.modulate[1](i, s, f, pow(base(i,s,f,0), 2) + 0.75*base(i,s,f,0.25) + 0.1*base(i,s,f,0.5))`
with `base = this.modulate[0]`. -/
def pianoWave (sin : ℚ → ℚ) (pi i s f : ℚ) : ℚ :=
  let base := (modList sin pi).getD 0 zeroMod
  ((modList sin pi).getD 1 zeroMod) i s f
    (base i s f 0 ^ 2 + 3 / 4 * base i s f (1 / 4) + 1 / 10 * base i s f (1 / 2))

/-- Intermediate buffer of `createWavHeader` after the RIFF tag and the
RIFF-size field `36 + dataLength` (bytes 4..7). -/
def hdrB2 (L : ℕ) : Bytes :=
  writeAt (bufWrite (List.replicate 44 0) "RIFF" 0) 4 (u32le (36 + L))

/-- Intermediate header buffers of `createWavHeader`, one per write. -/
def hdrB3 (L : ℕ) : Bytes := bufWrite (hdrB2 L) "WAVE" 8

def hdrB4 (L : ℕ) : Bytes := bufWrite (hdrB3 L) "fmt " 12

def hdrB5 (L : ℕ) : Bytes := writeAt (hdrB4 L) 16 (u32le 16)

def hdrB6 (L : ℕ) : Bytes := writeAt (hdrB5 L) 20 (u16le 1)

def hdrB7 (L : ℕ) : Bytes := writeAt (hdrB6 L) 22 (u16le 1)

def hdrB8 (L : ℕ) : Bytes := writeAt (hdrB7 L) 24 (u32le 44100)

def hdrB9 (L : ℕ) : Bytes := writeAt (hdrB8 L) 28 (u32le 88200)

def hdrB10 (L : ℕ) : Bytes := writeAt (hdrB9 L) 32 (u16le 2)

def hdrB11 (L : ℕ) : Bytes := writeAt (hdrB10 L) 34 (u16le 16)

def hdrB12 (L : ℕ) : Bytes := bufWrite (hdrB11 L) "data" 36

/-- The full 44-byte header `createWavHeader` produces for an in-range
`dataLength` (`hdr_shape` below proves this is what it returns). -/
def hdrBytes (L : ℕ) : Bytes := writeAt (hdrB12 L) 40 (u32le L)

/-- Intermediate buffers of the engine header (`_createWav` layout, i.e.
`wavHeader` with channels 1 and 16 bits per sample): identical to the
assembler header up to byte 23, then the engine's own sample rate (bytes
24..27) and byte rate `sampleRate * 1 * (16 / 8)` (bytes 28..31). -/
def engB8 (L : ℕ) (s : ℤ) : Bytes := writeAt (hdrB7 L) 24 (u32le s.toNat)

def engB9 (L : ℕ) (s : ℤ) : Bytes := writeAt (engB8 L s) 28 (u32le (s * 1 * (16 / 8) : ℤ).toNat)

def engB10 (L : ℕ) (s : ℤ) : Bytes := writeAt (engB9 L s) 32 (u16le 2)

def engB11 (L : ℕ) (s : ℤ) : Bytes := writeAt (engB10 L s) 34 (u16le 16)

def engB12 (L : ℕ) (s : ℤ) : Bytes := bufWrite (engB11 L s) "data" 36

/-- The full 44-byte header `AudioSynth._createWav` builds (via `wavHeader`)
for an in-range `dataLength` at engine sample rate `s` (`eng_shape` below
proves this is what it returns). -/
def engHdrBytes (L : ℕ) (s : ℤ) : Bytes := writeAt (engB12 L s) 40 (u32le L)

/-- Extract the payload of a successful render (used to state witnesses). -/
def okBytes : Except GenErr Bytes → Bytes
  | .ok b => b
  | .error _ => []

/-- Whether a render completed without throwing. -/
def isOkE : Except GenErr Bytes → Bool
  | .ok _ => true
  | .error _ => false

/-- Claim-version definition (follows the claim's words, for comparison with
`setSampleRate`): "the resulting engine sample rate equals
`min(max(truncate(r), 4000), 44100)`", with a plain truncation and no 32-bit
wrap. -/
def specSampleRateClamp (r : ℚ) : ℤ := min (max (qtrunc r) 4000) 44100

/-- Claim-version definition (follows the claim's words, for comparison with
`clampOctave`): "generate clamps the octave into [1,8]", i.e. a plain clamp of
the integer argument with no 32-bit wrap. -/
def specClampOctave (o : ℤ) : ℤ := min 8 (max 1 o)

/-- Claim-version definition (follows the claim's words, for comparison with
`modArg1`): "the outer modulation evaluates a sine at twice the fundamental's
frequency multiplier", i.e. sine argument `4π(i/s·f) + x`. -/
def specPianoDoubledArg (pi i s f x : ℚ) : ℚ := 4 * pi * (i / s * f) + x

/-- A trivial abstract `Math.pow` used by concrete witnesses. -/
def qpow0 : ℚ → ℚ → ℚ := fun _ _ => 0

/-- A concrete silent wave function (per sound index) for witnesses. -/
def waves0 : ℕ → WaveFn Unit := fun _ _ _ _ _ u => ((0 : ℚ), u)

/-- A second, different concrete wave function, to instantiate "the second
call does not re-invoke the wave function" at a changed wave. -/
def waves9 : ℕ → WaveFn Unit := fun _ _ _ _ _ u => ((9 : ℚ), u)

/-- A minimal test profile (attack 0, dampen 1) for witnesses. -/
def testProfile : ProfileData := ⟨"t", fun _ _ _ => 0, fun _ _ _ => 1⟩

/-- The `organ` profile's registry data: `attack = () => 0.3`,
`dampen = (s, f) => 1 + f * 0.01`. -/
def organProfile : ProfileData := ⟨"organ", fun _ _ _ => 3 / 10, fun _ f _ => 1 + f * (1 / 100)⟩

/-- A one-profile registry for witnesses. -/
def sounds1 : List ProfileData := [testProfile]

/-- A registry holding the organ profile. -/
def soundsOrgan : List ProfileData := [organProfile]

/-- A small engine state (sample rate 4, volume 0, empty cache) keeping
witness renders tiny. -/
def st4 : SynthState := ⟨4, 0, emptyCache⟩

/-- A concrete per-note render function for assembler witnesses: every note
renders to fifty bytes `7` (so its PCM body is six bytes `7`). -/
def genW : SynthNote → Bytes := fun _ => List.replicate 50 7

/-- A state whose cache already holds the key (0, octave 4, "A", 1 s), for the
memoization witness. -/
def stHit : SynthState := ⟨4, 0, cacheStore emptyCache 0 3 "A" 1 [5]⟩

/-- The WAV buffer a silent one-sample render at sample rate 8000 produces. -/
def wav5 : Bytes :=
  [82, 73, 70, 70, 38, 0, 0, 0, 87, 65, 86, 69, 102, 109, 116, 32, 16, 0, 0, 0, 1, 0,
   1, 0, 64, 31, 0, 0, 128, 62, 0, 0, 2, 0, 16, 0, 100, 97, 116, 97, 2, 0, 0, 0, 0, 0]

/-- The engine state after that render cached `wav5`. -/
def st5 : SynthState := ⟨8000, 0, cacheStore emptyCache 0 3 "A" (1 / 8000) wav5⟩

theorem u32le_length (v : ℕ) : (u32le v).length = 4 := rfl

theorem readU32LE_u32le (v : ℕ) (h : v < 4294967296) :
    readU32LE (u32le v) 0 = v := by
  simp only [readU32LE, u32le]
  norm_num [List.getD]
  omega

theorem writeU32_pos (buf : Bytes) (v : ℤ) (off : ℕ) (h0 : 0 ≤ v) (h : v ≤ 4294967295) :
    writeU32 buf v off = some (writeAt buf off (u32le v.toNat)) := by
  rw [writeU32, if_pos ⟨h0, h⟩]

theorem writeU16_pos (buf : Bytes) (v : ℤ) (off : ℕ) (h0 : 0 ≤ v) (h : v ≤ 65535) :
    writeU16 buf v off = some (writeAt buf off (u16le v.toNat)) := by
  rw [writeU16, if_pos ⟨h0, h⟩]

theorem writeAt_length (buf : Bytes) (off : ℕ) (bs : Bytes)
    (h : off + bs.length ≤ buf.length) : (writeAt buf off bs).length = buf.length := by
  simp [writeAt]
  omega

theorem writeAt_getD_lt (buf : Bytes) (off : ℕ) (bs : Bytes) (k : ℕ)
    (hk : k < off) (h : off ≤ buf.length) :
    (writeAt buf off bs).getD k 0 = buf.getD k 0 := by
  simp only [writeAt, List.getD, List.append_assoc]
  rw [List.get?_append (by simp; omega)]
  rw [List.get?_take hk]

theorem writeAt_getD_in (buf : Bytes) (off : ℕ) (bs : Bytes) (k : ℕ)
    (hk : k < bs.length) (h : off ≤ buf.length) :
    (writeAt buf off bs).getD (off + k) 0 = bs.getD k 0 := by
  have h1 : (buf.take off).length = off := by simp; omega
  simp only [writeAt, List.getD, List.append_assoc]
  rw [List.get?_append_right (by omega)]
  rw [h1]
  rw [List.get?_append (by omega)]
  congr 2
  omega

theorem hdrB2_length (L : ℕ) : (hdrB2 L).length = 44 := by
  rw [hdrB2, writeAt_length]
  · decide
  · rw [u32le_length]; decide

theorem hdrB3_length (L : ℕ) : (hdrB3 L).length = 44 := by
  rw [hdrB3, bufWrite, writeAt_length]
  · exact hdrB2_length L
  · rw [hdrB2_length]; decide

theorem hdrB4_length (L : ℕ) : (hdrB4 L).length = 44 := by
  rw [hdrB4, bufWrite, writeAt_length]
  · exact hdrB3_length L
  · rw [hdrB3_length]; decide

theorem hdrB5_length (L : ℕ) : (hdrB5 L).length = 44 := by
  rw [hdrB5, writeAt_length]
  · exact hdrB4_length L
  · rw [hdrB4_length]; decide

theorem hdrB6_length (L : ℕ) : (hdrB6 L).length = 44 := by
  rw [hdrB6, writeAt_length]
  · exact hdrB5_length L
  · rw [hdrB5_length]; decide

theorem hdrB7_length (L : ℕ) : (hdrB7 L).length = 44 := by
  rw [hdrB7, writeAt_length]
  · exact hdrB6_length L
  · rw [hdrB6_length]; decide

theorem hdrB8_length (L : ℕ) : (hdrB8 L).length = 44 := by
  rw [hdrB8, writeAt_length]
  · exact hdrB7_length L
  · rw [hdrB7_length]; decide

theorem hdrB9_length (L : ℕ) : (hdrB9 L).length = 44 := by
  rw [hdrB9, writeAt_length]
  · exact hdrB8_length L
  · rw [hdrB8_length]; decide

theorem hdrB10_length (L : ℕ) : (hdrB10 L).length = 44 := by
  rw [hdrB10, writeAt_length]
  · exact hdrB9_length L
  · rw [hdrB9_length]; decide

theorem hdrB11_length (L : ℕ) : (hdrB11 L).length = 44 := by
  rw [hdrB11, writeAt_length]
  · exact hdrB10_length L
  · rw [hdrB10_length]; decide

theorem hdrB12_length (L : ℕ) : (hdrB12 L).length = 44 := by
  rw [hdrB12, bufWrite, writeAt_length]
  · exact hdrB11_length L
  · rw [hdrB11_length]; decide

theorem hdrBytes_length (L : ℕ) : (hdrBytes L).length = 44 := by
  rw [hdrBytes, writeAt_length]
  · exact hdrB12_length L
  · rw [u32le_length, hdrB12_length]

theorem hdr_shape (L : ℕ) (hL : L ≤ 4294967259) :
    createWavHeader L = some (hdrBytes L) := by
  simp only [createWavHeader]
  rw [writeU32_pos _ _ _ (by omega) (by omega)]
  simp only [Option.bind_some, Option.some_bind, bind, Option.bind]
  rw [writeU32_pos _ _ _ (by norm_num) (by norm_num)]
  simp only [Option.bind_some, Option.some_bind, bind, Option.bind]
  rw [writeU16_pos _ _ _ (by norm_num) (by norm_num)]
  simp only [Option.bind_some, Option.some_bind, bind, Option.bind]
  rw [writeU16_pos _ _ _ (by norm_num) (by norm_num)]
  simp only [Option.bind_some, Option.some_bind, bind, Option.bind]
  rw [writeU32_pos _ _ _ (by norm_num) (by norm_num)]
  simp only [Option.bind_some, Option.some_bind, bind, Option.bind]
  rw [writeU32_pos _ _ _ (by norm_num) (by norm_num)]
  simp only [Option.bind_some, Option.some_bind, bind, Option.bind]
  rw [writeU16_pos _ _ _ (by norm_num) (by norm_num)]
  simp only [Option.bind_some, Option.some_bind, bind, Option.bind]
  rw [writeU16_pos _ _ _ (by norm_num) (by norm_num)]
  simp only [Option.bind_some, Option.some_bind, bind, Option.bind]
  rw [writeU32_pos _ _ _ (by omega) (by omega)]
  rfl

theorem hdrBytes_getD_hi (L : ℕ) (k : ℕ) (hk : k < 4) :
    (hdrBytes L).getD (40 + k) 0 = (u32le L).getD k 0 := by
  rw [hdrBytes]
  exact writeAt_getD_in _ 40 _ k (by rw [u32le_length]; exact hk) (by rw [hdrB12_length]; norm_num)

theorem hdrBytes_getD_47 (L : ℕ) (k : ℕ) (hk4 : 4 ≤ k) (hk : k < 8) :
    (hdrBytes L).getD k 0 = (u32le (36 + L)).getD (k - 4) 0 := by
  rw [hdrBytes, writeAt_getD_lt _ 40 _ k (by omega) (by rw [hdrB12_length]; norm_num)]
  rw [hdrB12, bufWrite, writeAt_getD_lt _ 36 _ k (by omega) (by rw [hdrB11_length]; norm_num)]
  rw [hdrB11, writeAt_getD_lt _ 34 _ k (by omega) (by rw [hdrB10_length]; norm_num)]
  rw [hdrB10, writeAt_getD_lt _ 32 _ k (by omega) (by rw [hdrB9_length]; norm_num)]
  rw [hdrB9, writeAt_getD_lt _ 28 _ k (by omega) (by rw [hdrB8_length]; norm_num)]
  rw [hdrB8, writeAt_getD_lt _ 24 _ k (by omega) (by rw [hdrB7_length]; norm_num)]
  rw [hdrB7, writeAt_getD_lt _ 22 _ k (by omega) (by rw [hdrB6_length]; norm_num)]
  rw [hdrB6, writeAt_getD_lt _ 20 _ k (by omega) (by rw [hdrB5_length]; norm_num)]
  rw [hdrB5, writeAt_getD_lt _ 16 _ k (by omega) (by rw [hdrB4_length]; norm_num)]
  rw [hdrB4, bufWrite, writeAt_getD_lt _ 12 _ k (by omega) (by rw [hdrB3_length]; norm_num)]
  rw [hdrB3, bufWrite, writeAt_getD_lt _ 8 _ k (by omega) (by rw [hdrB2_length]; norm_num)]
  rw [hdrB2]
  have hke : k = 4 + (k - 4) := by omega
  rw [hke]
  rw [writeAt_getD_in _ 4 _ (k - 4) (by rw [u32le_length]; omega) (by decide)]
  congr 1
  omega

theorem engB8_length (L : ℕ) (s : ℤ) : (engB8 L s).length = 44 := by
  rw [engB8, writeAt_length]
  · exact hdrB7_length L
  · rw [u32le_length, hdrB7_length]; norm_num

theorem engB9_length (L : ℕ) (s : ℤ) : (engB9 L s).length = 44 := by
  rw [engB9, writeAt_length]
  · exact engB8_length L s
  · rw [u32le_length, engB8_length]; norm_num

theorem engB10_length (L : ℕ) (s : ℤ) : (engB10 L s).length = 44 := by
  rw [engB10, writeAt_length]
  · exact engB9_length L s
  · rw [engB9_length]; decide

theorem engB11_length (L : ℕ) (s : ℤ) : (engB11 L s).length = 44 := by
  rw [engB11, writeAt_length]
  · exact engB10_length L s
  · rw [engB10_length]; decide

theorem engB12_length (L : ℕ) (s : ℤ) : (engB12 L s).length = 44 := by
  rw [engB12, bufWrite, writeAt_length]
  · exact engB11_length L s
  · rw [engB11_length]; decide

theorem engHdrBytes_length (L : ℕ) (s : ℤ) : (engHdrBytes L s).length = 44 := by
  rw [engHdrBytes, writeAt_length]
  · exact engB12_length L s
  · rw [u32le_length, engB12_length]

theorem eng_shape (L : ℕ) (s : ℤ) (hL : L ≤ 4294967259) (hs0 : 0 ≤ s) (hs1 : s ≤ 44100) :
    wavHeader L s 1 16 = some (engHdrBytes L s) := by
  simp only [wavHeader]
  rw [writeU32_pos _ _ _ (by omega) (by omega)]
  simp only [Option.bind_some, Option.some_bind, bind, Option.bind]
  rw [writeU32_pos _ _ _ (by norm_num) (by norm_num)]
  simp only [Option.bind_some, Option.some_bind, bind, Option.bind]
  rw [writeU16_pos _ _ _ (by norm_num) (by norm_num)]
  simp only [Option.bind_some, Option.some_bind, bind, Option.bind]
  rw [writeU16_pos _ _ _ (by norm_num) (by norm_num)]
  simp only [Option.bind_some, Option.some_bind, bind, Option.bind]
  rw [writeU32_pos _ _ _ (by omega) (by omega)]
  simp only [Option.bind_some, Option.some_bind, bind, Option.bind]
  rw [writeU32_pos _ _ _ (by push_cast; omega) (by push_cast; omega)]
  simp only [Option.bind_some, Option.some_bind, bind, Option.bind]
  rw [writeU16_pos _ _ _ (by norm_num) (by norm_num)]
  simp only [Option.bind_some, Option.some_bind, bind, Option.bind]
  rw [writeU16_pos _ _ _ (by norm_num) (by norm_num)]
  simp only [Option.bind_some, Option.some_bind, bind, Option.bind]
  rw [writeU32_pos _ _ _ (by omega) (by omega)]
  rfl

theorem engHdrBytes_getD_hi (L : ℕ) (s : ℤ) (k : ℕ) (hk : k < 4) :
    (engHdrBytes L s).getD (40 + k) 0 = (u32le L).getD k 0 := by
  rw [engHdrBytes]
  exact writeAt_getD_in _ 40 _ k (by rw [u32le_length]; exact hk)
    (by rw [engB12_length]; norm_num)

theorem engHdrBytes_getD_47 (L : ℕ) (s : ℤ) (k : ℕ) (hk4 : 4 ≤ k) (hk : k < 8) :
    (engHdrBytes L s).getD k 0 = (u32le (36 + L)).getD (k - 4) 0 := by
  rw [engHdrBytes, writeAt_getD_lt _ 40 _ k (by omega) (by rw [engB12_length]; norm_num)]
  rw [engB12, bufWrite, writeAt_getD_lt _ 36 _ k (by omega) (by rw [engB11_length]; norm_num)]
  rw [engB11, writeAt_getD_lt _ 34 _ k (by omega) (by rw [engB10_length]; norm_num)]
  rw [engB10, writeAt_getD_lt _ 32 _ k (by omega) (by rw [engB9_length]; norm_num)]
  rw [engB9, writeAt_getD_lt _ 28 _ k (by omega) (by rw [engB8_length]; norm_num)]
  rw [engB8, writeAt_getD_lt _ 24 _ k (by omega) (by rw [hdrB7_length]; norm_num)]
  rw [hdrB7, writeAt_getD_lt _ 22 _ k (by omega) (by rw [hdrB6_length]; norm_num)]
  rw [hdrB6, writeAt_getD_lt _ 20 _ k (by omega) (by rw [hdrB5_length]; norm_num)]
  rw [hdrB5, writeAt_getD_lt _ 16 _ k (by omega) (by rw [hdrB4_length]; norm_num)]
  rw [hdrB4, bufWrite, writeAt_getD_lt _ 12 _ k (by omega) (by rw [hdrB3_length]; norm_num)]
  rw [hdrB3, bufWrite, writeAt_getD_lt _ 8 _ k (by omega) (by rw [hdrB2_length]; norm_num)]
  rw [hdrB2]
  have hke : k = 4 + (k - 4) := by omega
  rw [hke]
  rw [writeAt_getD_in _ 4 _ (k - 4) (by rw [u32le_length]; omega) (by decide)]
  congr 1
  omega

theorem hdrBytes_field40 (L : ℕ) (hL : L ≤ 4294967259) : readU32LE (hdrBytes L) 40 = L := by
  have e0 := hdrBytes_getD_hi L 0 (by norm_num)
  have e1 := hdrBytes_getD_hi L 1 (by norm_num)
  have e2 := hdrBytes_getD_hi L 2 (by norm_num)
  have e3 := hdrBytes_getD_hi L 3 (by norm_num)
  norm_num at e0 e1 e2 e3
  rw [readU32LE]
  norm_num [e0, e1, e2, e3]
  simp [u32le, List.getD]
  omega

theorem hdrBytes_field4 (L : ℕ) (hL : L ≤ 4294967259) :
    readU32LE (hdrBytes L) 4 = 36 + L := by
  have e0 := hdrBytes_getD_47 L 4 (by norm_num) (by norm_num)
  have e1 := hdrBytes_getD_47 L 5 (by norm_num) (by norm_num)
  have e2 := hdrBytes_getD_47 L 6 (by norm_num) (by norm_num)
  have e3 := hdrBytes_getD_47 L 7 (by norm_num) (by norm_num)
  norm_num at e0 e1 e2 e3
  rw [readU32LE]
  norm_num [e0, e1, e2, e3]
  simp [u32le, List.getD]
  omega

theorem engHdrBytes_field40 (L : ℕ) (s : ℤ) (hL : L ≤ 4294967259) :
    readU32LE (engHdrBytes L s) 40 = L := by
  have e0 := engHdrBytes_getD_hi L s 0 (by norm_num)
  have e1 := engHdrBytes_getD_hi L s 1 (by norm_num)
  have e2 := engHdrBytes_getD_hi L s 2 (by norm_num)
  have e3 := engHdrBytes_getD_hi L s 3 (by norm_num)
  norm_num at e0 e1 e2 e3
  rw [readU32LE]
  norm_num [e0, e1, e2, e3]
  simp [u32le, List.getD]
  omega

theorem engHdrBytes_field4 (L : ℕ) (s : ℤ) (hL : L ≤ 4294967259) :
    readU32LE (engHdrBytes L s) 4 = 36 + L := by
  have e0 := engHdrBytes_getD_47 L s 4 (by norm_num) (by norm_num)
  have e1 := engHdrBytes_getD_47 L s 5 (by norm_num) (by norm_num)
  have e2 := engHdrBytes_getD_47 L s 6 (by norm_num) (by norm_num)
  have e3 := engHdrBytes_getD_47 L s 7 (by norm_num) (by norm_num)
  norm_num at e0 e1 e2 e3
  rw [readU32LE]
  norm_num [e0, e1, e2, e3]
  simp [u32le, List.getD]
  omega

/-- C2 (amended): for every data length `L` with `36 + L < 2^32`, both header
builders — the assembler's `createWavHeader(L)` and the engine's `_createWav`
layout (`wavHeader` with channels 1, 16 bits per sample, at every clamp-range
sample rate) — succeed and build a 44-byte header whose data-length field
(bytes 40..43, little-endian) equals `L` and whose RIFF size field
(bytes 4..7) equals `36 + L`, and stripping the header from `header ++ pcm`
(taking the bytes from offset 44 onward) returns exactly `pcm`. -/
theorem c2_header_integrity (L : ℕ) (hL : L ≤ 4294967259) :
    ((createWavHeader L).isSome = true ∧
     ((createWavHeader L).getD []).length = 44 ∧
     readU32LE ((createWavHeader L).getD []) 40 = L ∧
     readU32LE ((createWavHeader L).getD []) 4 = 36 + L ∧
     ∀ pcm : Bytes, extractPCM ((createWavHeader L).getD [] ++ pcm) = pcm) ∧
    (∀ s : ℤ, 0 ≤ s → s ≤ 44100 →
     (wavHeader L s 1 16).isSome = true ∧
     ((wavHeader L s 1 16).getD []).length = 44 ∧
     readU32LE ((wavHeader L s 1 16).getD []) 40 = L ∧
     readU32LE ((wavHeader L s 1 16).getD []) 4 = 36 + L ∧
     ∀ pcm : Bytes, extractPCM ((wavHeader L s 1 16).getD [] ++ pcm) = pcm) := by
  constructor
  · rw [hdr_shape L hL]
    simp only [Option.isSome_some, Option.getD_some]
    refine ⟨trivial, hdrBytes_length L, hdrBytes_field40 L hL, hdrBytes_field4 L hL, ?_⟩
    intro pcm
    rw [extractPCM, ← hdrBytes_length L, List.drop_left]
  · intro s hs0 hs1
    rw [eng_shape L s hL hs0 hs1]
    simp only [Option.isSome_some, Option.getD_some]
    refine ⟨trivial, engHdrBytes_length L s, engHdrBytes_field40 L s hL,
      engHdrBytes_field4 L s hL, ?_⟩
    intro pcm
    rw [extractPCM, ← engHdrBytes_length L s, List.drop_left]

/-- C2 counterexample: the claim quantifies over every `L ≥ 0`, but for
`L = 4294967260` the RIFF size `36 + L = 2^32` is out of `writeUInt32LE`
range, so both builders throw and no header is produced. -/
theorem c2_counterexample :
    createWavHeader 4294967260 = none ∧ wavHeader 4294967260 44100 1 16 = none :=
  ⟨by decide, by decide⟩

/-- C2 witness: the amended header-integrity law at `L = 100`,
`pcm = [1, 2, 3]`, for the assembler header and for the engine header at
sample rate 8000. -/
theorem c2_witness :
    (createWavHeader 100).isSome = true ∧
    readU32LE ((createWavHeader 100).getD []) 40 = 100 ∧
    readU32LE ((createWavHeader 100).getD []) 4 = 136 ∧
    extractPCM ((createWavHeader 100).getD [] ++ [1, 2, 3]) = [1, 2, 3] ∧
    (wavHeader 100 8000 1 16).isSome = true ∧
    readU32LE ((wavHeader 100 8000 1 16).getD []) 40 = 100 ∧
    readU32LE ((wavHeader 100 8000 1 16).getD []) 4 = 136 ∧
    extractPCM ((wavHeader 100 8000 1 16).getD [] ++ [1, 2, 3]) = [1, 2, 3] := by
  have h := c2_header_integrity 100 (by norm_num)
  have he := h.2 8000 (by norm_num) (by norm_num)
  exact ⟨h.1.1, h.1.2.2.1, by rw [h.1.2.2.2.1], h.1.2.2.2.2 [1, 2, 3],
    he.1, he.2.2.1, by rw [he.2.2.2.1], he.2.2.2.2 [1, 2, 3]⟩

theorem generate_memo {Vars Vars' : Type} (waves : ℕ → WaveFn Vars) (v0 : Vars)
    (qpow : ℚ → ℚ → ℚ) (waves' : ℕ → WaveFn Vars') (v0' : Vars') (qpow' : ℚ → ℚ → ℚ)
    (sounds : List ProfileData) (st : SynthState) (sound : SoundID) (note : String)
    (octave : ℤ) (duration : ℚ) (b : Bytes) (st' : SynthState)
    (h : generate waves v0 qpow sounds st sound note octave duration = (.ok b, st')) :
    generate waves' v0' qpow' sounds st' sound note octave duration = (.ok b, st') := by
  cases hfs : findSound sounds sound with
  | none => simp only [generate, hfs] at h; simp at h
  | some sid =>
    cases hg : sounds.get? sid with
    | none => simp only [generate, hfs, hg] at h; simp at h
    | some prof =>
      cases hnt : notesTable note with
      | none => simp only [generate, hfs, hg, hnt] at h; simp at h
      | some base =>
        cases hc : st.cache sid (clampOctave octave - 1) note (defDuration duration) with
        | some cached =>
          simp only [generate, hfs, hg, hnt, hc] at h
          simp only [Prod.mk.injEq, Except.ok.injEq] at h
          obtain ⟨hb, hst⟩ := h
          subst hb
          subst hst
          simp only [generate, hfs, hg, hnt, hc]
        | none =>
          cases hr : renderNote (waves sid) v0 qpow prof st.sampleRate st.volume base
              (clampOctave octave) (defDuration duration) with
          | error e => simp only [generate, hfs, hg, hnt, hc, hr] at h; simp at h
          | ok wav =>
            simp only [generate, hfs, hg, hnt, hc, hr] at h
            simp only [Prod.mk.injEq, Except.ok.injEq] at h
            obtain ⟨hb, hst⟩ := h
            subst hb
            subst hst
            simp only [generate, hfs, hg, hnt]
            simp [cacheStore]

theorem generate_cache_mono {Vars : Type} (waves : ℕ → WaveFn Vars) (v0 : Vars)
    (qpow : ℚ → ℚ → ℚ) (sounds : List ProfileData) (st : SynthState) (sound : SoundID)
    (note : String) (octave : ℤ) (duration : ℚ) (sid' : ℕ) (oi' : ℤ) (n' : String) (d' : ℚ)
    (bb : Bytes) (hbb : st.cache sid' oi' n' d' = some bb) :
    (generate waves v0 qpow sounds st sound note octave duration).2.cache sid' oi' n' d' =
      some bb := by
  cases hfs : findSound sounds sound with
  | none => simp only [generate, hfs]; exact hbb
  | some sid =>
    cases hg : sounds.get? sid with
    | none => simp only [generate, hfs, hg]; exact hbb
    | some prof =>
      cases hnt : notesTable note with
      | none => simp only [generate, hfs, hg, hnt]; exact hbb
      | some base =>
        cases hc : st.cache sid (clampOctave octave - 1) note (defDuration duration) with
        | some cached => simp only [generate, hfs, hg, hnt, hc]; exact hbb
        | none =>
          cases hr : renderNote (waves sid) v0 qpow prof st.sampleRate st.volume base
              (clampOctave octave) (defDuration duration) with
          | error e => simp only [generate, hfs, hg, hnt, hc, hr]; exact hbb
          | ok wav =>
            simp only [generate, hfs, hg, hnt, hc, hr, cacheStore]
            split
            · next hkey =>
              obtain ⟨h1, h2, h3, h4⟩ := hkey
              rw [h1, h2, h3, h4] at hbb
              rw [hbb] at hc
              cases hc
            · exact hbb

/-- C1: for fixed engine settings, a successful `generate` call followed by a
second call with the same arguments returns the byte-identical buffer and
leaves the state unchanged, without consulting the wave function, the `Math.pow`
evaluator or the scratch state at all (the second call's result is the same
for every choice of them — in particular the instrument's wave function is not
re-invoked); moreover a render never evicts or overwrites an existing cache
entry, so for fixed settings the cache behaves as a pure memoization table. -/
theorem c1_pure_memoization {Vars Vars' : Type} (waves : ℕ → WaveFn Vars) (v0 : Vars)
    (qpow : ℚ → ℚ → ℚ) (sounds : List ProfileData) (st : SynthState) (sound : SoundID)
    (note : String) (octave : ℤ) (duration : ℚ) (b : Bytes) (st' : SynthState)
    (h : generate waves v0 qpow sounds st sound note octave duration = (.ok b, st')) :
    (∀ (waves' : ℕ → WaveFn Vars') (v0' : Vars') (qpow' : ℚ → ℚ → ℚ),
        generate waves' v0' qpow' sounds st' sound note octave duration = (.ok b, st')) ∧
    (∀ (sid' : ℕ) (oi' : ℤ) (n' : String) (d' : ℚ) (bb : Bytes),
        st.cache sid' oi' n' d' = some bb → st'.cache sid' oi' n' d' = some bb) := by
  constructor
  · intro waves' v0' qpow'
    exact generate_memo waves v0 qpow waves' v0' qpow' sounds st sound note octave duration
      b st' h
  · intro sid' oi' n' d' bb hbb
    have hm := generate_cache_mono waves v0 qpow sounds st sound note octave duration
      sid' oi' n' d' bb hbb
    rw [h] at hm
    exact hm

/-- C1 witness: on a concrete state whose cache holds the buffer `[5]` under
the key (sound 0, octave 4, "A", 1 s), a repeat call with a different wave
function still returns `[5]` and the unchanged state. -/
theorem c1_witness :
    generate waves9 () qpow0 sounds1 stHit (Sum.inl "t") "A" 4 1 = (.ok [5], stHit) :=
  (c1_pure_memoization waves0 () qpow0 sounds1 stHit (Sum.inl "t") "A" 4 1 [5] stHit
    rfl).1 waves9 () qpow0

/-- C6: with a valid instrument, any pitch-class argument that is not one of
the 12 known note names makes `generate` throw InvalidNote, and the failed
call leaves the state — in particular the render cache — unchanged. -/
theorem c6_invalid_note {Vars : Type} (waves : ℕ → WaveFn Vars) (v0 : Vars)
    (qpow : ℚ → ℚ → ℚ) (sounds : List ProfileData) (st : SynthState) (sound : SoundID)
    (note : String) (octave : ℤ) (duration : ℚ) (sid : ℕ) (prof : ProfileData)
    (hfs : findSound sounds sound = some sid) (hgp : sounds.get? sid = some prof)
    (hnt : notesTable note = none) :
    generate waves v0 qpow sounds st sound note octave duration = (.error .invalidNote, st) ∧
    (generate waves v0 qpow sounds st sound note octave duration).2.cache = st.cache := by
  have h : generate waves v0 qpow sounds st sound note octave duration =
      (.error .invalidNote, st) := by
    simp only [generate, hfs, hgp, hnt]
  exact ⟨h, by rw [h]⟩

/-- C6 witness: the unknown pitch class "H" on a concrete one-instrument
engine throws InvalidNote and leaves the state unchanged. -/
theorem c6_witness :
    generate waves0 () qpow0 sounds1 st4 (Sum.inl "t") "H" 4 1 = (.error .invalidNote, st4) ∧
    (generate waves0 () qpow0 sounds1 st4 (Sum.inl "t") "H" 4 1).2.cache = st4.cache :=
  c6_invalid_note waves0 () qpow0 sounds1 st4 (Sum.inl "t") "H" 4 1 0 testProfile rfl rfl rfl

/-- C5: `setSampleRate` and `setVolume` are total (they never throw: they are
plain functions into result values) and clear the entire render cache: after
either call every key misses; and when a later `generate` on the cleared state
succeeds, its buffer is independently re-cached — repeating that call returns
the same buffer from the new cache entry whatever wave function is used. -/
theorem c5_cache_invalidation (st : SynthState) (r v : ℚ) :
    (∀ (sid : ℕ) (oi : ℤ) (n : String) (d : ℚ),
        (setSampleRate st r).2.cache sid oi n d = none) ∧
    (∀ (sid : ℕ) (oi : ℤ) (n : String) (d : ℚ),
        (setVolume st v).2.cache sid oi n d = none) ∧
    (∀ (Vars Vars' : Type) (waves : ℕ → WaveFn Vars) (v0 : Vars) (qpow : ℚ → ℚ → ℚ)
        (waves' : ℕ → WaveFn Vars') (v0' : Vars') (qpow' : ℚ → ℚ → ℚ)
        (sounds : List ProfileData) (sound : SoundID) (note : String) (octave : ℤ)
        (duration : ℚ) (b : Bytes) (st' : SynthState),
        generate waves v0 qpow sounds (setSampleRate st r).2 sound note octave duration =
          (.ok b, st') →
        generate waves' v0' qpow' sounds st' sound note octave duration = (.ok b, st')) := by
  refine ⟨fun _ _ _ _ => rfl, fun _ _ _ _ => rfl, ?_⟩
  intro Vars Vars' waves v0 qpow waves' v0' qpow' sounds sound note octave duration b st' h
  exact generate_memo waves v0 qpow waves' v0' qpow' sounds (setSampleRate st r).2 sound
    note octave duration b st' h

/-- C5 witness: concrete cleared-cache lookups after `setSampleRate` and
`setVolume`, and a re-render to sample rate 8000 that re-caches `wav5` so a
repeat call (with a different wave function) returns it. -/
theorem c5_witness :
    (setSampleRate st4 8000).2.cache 0 3 "A" 1 = none ∧
    (setVolume st4 (1 / 2)).2.cache 0 3 "A" 1 = none ∧
    generate waves9 () qpow0 sounds1 st5 (Sum.inl "t") "A" 4 (1 / 8000) = (.ok wav5, st5) := by
  have hset : (setSampleRate st4 8000).2 = ⟨8000, 0, emptyCache⟩ := by
    norm_num [setSampleRate, st4, toInt32Q, qtrunc, wrap32]
  have hfs : findSound sounds1 (Sum.inl "t") = some 0 := rfl
  have hgp : sounds1.get? 0 = some testProfile := rfl
  have hnt : notesTable "A" = some (440 : ℚ) := rfl
  have hoct : clampOctave 4 = 4 := by decide
  have hdur : defDuration (1 / 8000 : ℚ) = 1 / 8000 := by norm_num [defDuration]
  have hfreq : noteFreq 440 4 = 440 := by norm_num [noteFreq]
  have hAS : attackSamples 8000 0 = 0 := by norm_num [attackSamples, toInt32Q, qtrunc, wrap32]
  have hDS : decaySamples 8000 (1 / 8000) = 1 := by
    norm_num [decaySamples, toInt32Q, qtrunc, wrap32]
  have hwav : wavHeader 2 8000 1 16 =
      some [82, 73, 70, 70, 38, 0, 0, 0, 87, 65, 86, 69, 102, 109, 116, 32, 16, 0, 0, 0,
        1, 0, 1, 0, 64, 31, 0, 0, 128, 62, 0, 0, 2, 0, 16, 0, 100, 97, 116, 97, 2, 0, 0, 0] := by
    decide
  have hdp : decayPhase (waves0 0) qpow0 8000 440 0 0 1 (1 / 8000) 0 0 1 [0] () = ([0], ()) := by
    simp [decayPhase, waves0, qpow0, wrap16, toInt32Q, qtrunc, wrap32]
  have h2 : generate waves0 () qpow0 sounds1 (⟨8000, 0, emptyCache⟩ : SynthState)
      (Sum.inl "t") "A" 4 (1 / 8000) = (.ok wav5, st5) := by
    have hrn : renderNote (waves0 0) () qpow0 testProfile 8000 0 440 4 (1 / 8000) =
        .ok wav5 := by
      simp only [renderNote, hfreq, testProfile, hAS, hDS]
      norm_num [attackPhase, hdp, i16bytes, u16le, hwav, wav5]
    simp only [generate, hfs, hgp, hnt, hoct, hdur, emptyCache, hrn]
    norm_num [st5]
  refine ⟨rfl, rfl, ?_⟩
  have h2' : generate waves0 () qpow0 sounds1 (setSampleRate st4 8000).2
      (Sum.inl "t") "A" 4 (1 / 8000) = (.ok wav5, st5) := by rw [hset]; exact h2
  exact (c5_cache_invalidation st4 8000 (1 / 2)).2.2 Unit Unit waves0 () qpow0 waves9 () qpow0
    sounds1 (Sum.inl "t") "A" 4 (1 / 8000) wav5 st5 h2'

/-- C10 (amended): `setSampleRate(r)` never throws and silently clamps: the
resulting engine rate is `min(max(ToInt32(r), 4000), 44100)` — where `ToInt32`
truncates toward zero and then wraps into [-2^31, 2^31), as `r | 0` does — and
the function returns exactly the value it stored. -/
theorem c10_sample_rate_clamp (st : SynthState) (r : ℚ) :
    (setSampleRate st r).1 = min (max (toInt32Q r) 4000) 44100 ∧
    (setSampleRate st r).2.sampleRate = (setSampleRate st r).1 := by
  constructor
  · show max (min (toInt32Q r) 44100) 4000 = min (max (toInt32Q r) 4000) 44100
    omega
  · rfl

/-- C10 counterexample: the claim's formula uses a plain truncation, but the
code's `r | 0` wraps: at `r = 2^31` the engine sets 4000 while the claimed
`min(max(truncate(r), 4000), 44100)` is 44100. -/
theorem c10_counterexample :
    (setSampleRate st4 2147483648).1 = 4000 ∧
    specSampleRateClamp 2147483648 = 44100 ∧ (4000 : ℤ) ≠ 44100 := by
  refine ⟨?_, ?_, by decide⟩
  · norm_num [setSampleRate, toInt32Q, qtrunc, wrap32]
  · norm_num [specSampleRateClamp, qtrunc]

/-- C8 (amended): for every integer octave argument in the 32-bit range
[-2^31, 2^31), `generate` clamps the octave into [1, 8] instead of failing:
the computed octave agrees with the plain clamp `min(8, max(1, octave))`,
octave 0 renders as octave 1 and octave 12 as octave 8 (the `generate` call
with the raw octave equals the call with the clamped octave), and the note's
frequency is `baseFrequency * 2^(clampedOctave - 4)`. -/
theorem c8_octave_clamp {Vars : Type} (waves : ℕ → WaveFn Vars) (v0 : Vars)
    (qpow : ℚ → ℚ → ℚ) (sounds : List ProfileData) (st : SynthState) (sound : SoundID)
    (note : String) (octave : ℤ) (duration : ℚ) (base : ℚ)
    (h1 : -2147483648 ≤ octave) (h2 : octave < 2147483648) :
    1 ≤ clampOctave octave ∧ clampOctave octave ≤ 8 ∧
    clampOctave octave = specClampOctave octave ∧
    clampOctave 0 = 1 ∧ clampOctave 12 = 8 ∧
    generate waves v0 qpow sounds st sound note octave duration =
      generate waves v0 qpow sounds st sound note (clampOctave octave) duration ∧
    noteFreq base (clampOctave octave) = base * 2 ^ (clampOctave octave - 4) := by
  have hid : clampOctave (clampOctave octave) = clampOctave octave := by
    simp only [clampOctave, wrap32]
    omega
  refine ⟨?_, ?_, ?_, by decide, by decide, ?_, rfl⟩
  · simp only [clampOctave, wrap32]; omega
  · simp only [clampOctave, wrap32]; omega
  · simp only [clampOctave, specClampOctave, wrap32]; omega
  · simp only [generate, hid]

/-- C8 witness: the amended octave-clamp law at octave 0 on a concrete
engine. -/
theorem c8_witness :
    1 ≤ clampOctave 0 ∧ clampOctave 0 ≤ 8 ∧
    clampOctave 0 = specClampOctave 0 ∧
    clampOctave 0 = 1 ∧ clampOctave 12 = 8 ∧
    generate waves0 () qpow0 sounds1 st4 (Sum.inl "t") "A" 0 1 =
      generate waves0 () qpow0 sounds1 st4 (Sum.inl "t") "A" (clampOctave 0) 1 ∧
    noteFreq 440 (clampOctave 0) = 440 * 2 ^ (clampOctave 0 - 4) :=
  c8_octave_clamp waves0 () qpow0 sounds1 st4 (Sum.inl "t") "A" 0 1 440
    (by decide) (by decide)

/-- C8 counterexample: at octave `2^31` the code's 32-bit wrap sends the
request to octave 1, while the claim's plain clamp of the integer argument
gives octave 8. -/
theorem c8_counterexample :
    clampOctave 2147483648 = 1 ∧ specClampOctave 2147483648 = 8 ∧ (1 : ℤ) ≠ 8 := by
  refine ⟨?_, by decide, by decide⟩
  simp only [clampOctave, wrap32]
  decide

theorem toInt32Q_small (q : ℚ) (h0 : 0 ≤ q) (h1 : q < 2147483648) :
    toInt32Q q = ⌊q⌋ ∧ 0 ≤ toInt32Q q ∧ toInt32Q q ≤ ⌊q⌋ := by
  have hf0 : 0 ≤ ⌊q⌋ := Int.floor_nonneg.2 h0
  have hf1 : ⌊q⌋ < 2147483648 := by
    rw [Int.floor_lt]
    push_cast
    exact h1
  have he : toInt32Q q = ⌊q⌋ := by
    rw [toInt32Q, qtrunc, if_pos h0, wrap32]
    omega
  exact ⟨he, by omega, by omega⟩

theorem attackPhase_length {Vars : Type} (wave : WaveFn Vars) (s : ℤ) (f : ℚ) (vol : ℤ)
    (attack : ℚ) (n : ℕ) : ∀ (i : ℕ) (data : List ℤ) (vars : Vars),
    (attackPhase wave s f vol attack i n data vars).1.length = data.length := by
  induction n with
  | zero => intro i data vars; rfl
  | succ n ih =>
    intro i data vars
    rw [attackPhase]
    rw [ih]
    exact List.length_set data i _

theorem decayPhase_length {Vars : Type} (wave : WaveFn Vars) (qpow : ℚ → ℚ → ℚ) (s : ℤ)
    (f : ℚ) (vol : ℤ) (attack dampen d : ℚ) (attackLen : ℤ) (n : ℕ) :
    ∀ (i : ℕ) (data : List ℤ) (vars : Vars),
    (decayPhase wave qpow s f vol attack dampen d attackLen i n data vars).1.length =
      data.length := by
  induction n with
  | zero => intro i data vars; rfl
  | succ n ih =>
    intro i data vars
    rw [decayPhase]
    rw [ih]
    exact List.length_set data i _

theorem i16bytes_flatMap_length (data : List ℤ) :
    (data.flatMap i16bytes).length = 2 * data.length := by
  induction data with
  | nil => rfl
  | cons x xs ih =>
    simp only [List.flatMap_cons, List.length_append, ih, List.length_cons]
    simp [i16bytes, u16le]
    ring

theorem wavHeader_isSome (len : ℕ) (s : ℤ) (hs0 : 0 ≤ s) (hs1 : s ≤ 44100)
    (hlen : (len : ℤ) ≤ 4294967259) :
    ∃ w, wavHeader len s 1 16 = some w := by
  simp only [wavHeader]
  rw [writeU32_pos _ _ _ (by omega) (by omega)]
  simp only [Option.bind_some, Option.some_bind, bind, Option.bind]
  rw [writeU32_pos _ _ _ (by norm_num) (by norm_num)]
  simp only [Option.bind_some, Option.some_bind, bind, Option.bind]
  rw [writeU16_pos _ _ _ (by norm_num) (by norm_num)]
  simp only [Option.bind_some, Option.some_bind, bind, Option.bind]
  rw [writeU16_pos _ _ _ (by norm_num) (by norm_num)]
  simp only [Option.bind_some, Option.some_bind, bind, Option.bind]
  rw [writeU32_pos _ _ _ (by omega) (by omega)]
  simp only [Option.bind_some, Option.some_bind, bind, Option.bind]
  rw [writeU32_pos _ _ _ (by push_cast; omega) (by push_cast; omega)]
  simp only [Option.bind_some, Option.some_bind, bind, Option.bind]
  rw [writeU16_pos _ _ _ (by norm_num) (by norm_num)]
  simp only [Option.bind_some, Option.some_bind, bind, Option.bind]
  rw [writeU16_pos _ _ _ (by norm_num) (by norm_num)]
  simp only [Option.bind_some, Option.some_bind, bind, Option.bind]
  rw [writeU32_pos _ _ _ (by omega) (by omega)]
  exact ⟨_, rfl⟩

theorem renderNote_ok {Vars : Type} (wave : WaveFn Vars) (v0 : Vars) (qpow : ℚ → ℚ → ℚ)
    (prof : ProfileData) (s vol : ℤ) (base : ℚ) (o : ℤ) (d : ℚ)
    (hs0 : 0 < s) (hs1 : s ≤ 44100) (hd0 : 0 < d) (hd2 : (s : ℚ) * d < 2147483630) :
    ∃ w, renderNote wave v0 qpow prof s vol base o d = .ok w := by
  have hsd0 : (0 : ℚ) ≤ (s : ℚ) * d := by positivity
  have hds := toInt32Q_small ((s : ℚ) * d) hsd0 (by linarith)
  have hfloor : ⌊(s : ℚ) * d⌋ ≤ 2147483629 := by
    have : ((⌊(s : ℚ) * d⌋ : ℚ)) ≤ (s : ℚ) * d := Int.floor_le _
    by_contra hcon
    push_neg at hcon
    have : (2147483630 : ℚ) ≤ (⌊(s : ℚ) * d⌋ : ℚ) := by exact_mod_cast hcon
    linarith
  have hdec0 : 0 ≤ decaySamples s d := by rw [decaySamples]; exact hds.2.1
  have hdecB : decaySamples s d ≤ 2147483629 := by
    rw [decaySamples, hds.1]; exact hfloor
  simp only [renderNote]
  rw [if_neg (by omega)]
  have hlen : ((attackPhase wave s (noteFreq base o) vol
      (prof.attack s (noteFreq base o) vol) 0 (attackSamples s
      (prof.attack s (noteFreq base o) vol)).toNat
      (List.replicate (decaySamples s d).toNat 0) v0).1).length =
      (decaySamples s d).toNat := by
    rw [attackPhase_length]
    exact List.length_replicate _ _
  set r1 := attackPhase wave s (noteFreq base o) vol
      (prof.attack s (noteFreq base o) vol) 0 (attackSamples s
      (prof.attack s (noteFreq base o) vol)).toNat
      (List.replicate (decaySamples s d).toNat 0) v0 with hr1
  set r2 := decayPhase wave qpow s (noteFreq base o) vol
      (prof.attack s (noteFreq base o) vol)
      (prof.dampen s (noteFreq base o) vol) d (attackSamples s
      (prof.attack s (noteFreq base o) vol))
      (attackSamples s (prof.attack s (noteFreq base o) vol)).toNat
      (decaySamples s d - ((attackSamples s
        (prof.attack s (noteFreq base o) vol)).toNat : ℤ)).toNat r1.1 r1.2 with hr2
  have hlen2 : (r2.1.flatMap i16bytes).length = 2 * (decaySamples s d).toNat := by
    rw [i16bytes_flatMap_length, hr2, decayPhase_length, hlen]
  obtain ⟨w, hw⟩ := wavHeader_isSome (r2.1.flatMap i16bytes).length s (by omega) hs1
    (by rw [hlen2]; push_cast; omega)
  rw [hw]
  exact ⟨_, rfl⟩

/-- C9 (amended): for every render with positive duration whose envelope
products stay inside the 32-bit range (`sampleRate * attackSeconds < 2^31` and
`sampleRate * duration < 2^31 - 18`), the attack sample count
`(sampleRate * attackSeconds) | 0` and the decay sample count
`(sampleRate * duration) | 0` are both non-negative — also when
`duration <= attackSeconds` — and `generate` completes and returns a WAV
buffer rather than failing. -/
theorem c9_envelope_boundary {Vars : Type} (waves : ℕ → WaveFn Vars) (v0 : Vars)
    (qpow : ℚ → ℚ → ℚ) (sounds : List ProfileData) (st : SynthState) (sound : SoundID)
    (note : String) (octave : ℤ) (duration : ℚ) (sid : ℕ) (prof : ProfileData) (base : ℚ)
    (hfs : findSound sounds sound = some sid) (hgp : sounds.get? sid = some prof)
    (hnt : notesTable note = some base)
    (hs0 : 0 < st.sampleRate) (hs1 : st.sampleRate ≤ 44100)
    (hd : 0 < duration) (hd2 : (st.sampleRate : ℚ) * duration < 2147483630)
    (ha : 0 ≤ prof.attack st.sampleRate (noteFreq base (clampOctave octave)) st.volume)
    (ha2 : (st.sampleRate : ℚ) *
      prof.attack st.sampleRate (noteFreq base (clampOctave octave)) st.volume < 2147483648) :
    0 ≤ attackSamples st.sampleRate
      (prof.attack st.sampleRate (noteFreq base (clampOctave octave)) st.volume) ∧
    0 ≤ decaySamples st.sampleRate duration ∧
    isOkE (generate waves v0 qpow sounds st sound note octave duration).1 = true := by
  have hsq : (0 : ℚ) ≤ (st.sampleRate : ℚ) := by exact_mod_cast le_of_lt hs0
  have hdd : defDuration duration = duration := by rw [defDuration, if_neg (ne_of_gt hd)]
  refine ⟨?_, ?_, ?_⟩
  · rw [attackSamples]
    exact (toInt32Q_small _ (mul_nonneg hsq ha) ha2).2.1
  · rw [decaySamples]
    exact (toInt32Q_small _ (mul_nonneg hsq (le_of_lt hd)) (by linarith)).2.1
  · cases hc : st.cache sid (clampOctave octave - 1) note (defDuration duration) with
    | some cached => simp only [generate, hfs, hgp, hnt, hc]; rfl
    | none =>
      obtain ⟨w, hw⟩ := renderNote_ok (waves sid) v0 qpow prof st.sampleRate st.volume base
        (clampOctave octave) (defDuration duration) hs0 hs1 (by rw [hdd]; exact hd)
        (by rw [hdd]; exact hd2)
      simp only [generate, hfs, hgp, hnt, hc, hw]
      rfl

/-- C9 witness: the claim's own boundary case — a 0.1 s note on the organ
profile (attack 0.3 s) at 44100 Hz — has non-negative envelope sample counts
and a completing render. -/
theorem c9_witness :
    0 ≤ attackSamples initState.sampleRate
      (organProfile.attack initState.sampleRate (noteFreq 440 (clampOctave 4))
        initState.volume) ∧
    0 ≤ decaySamples initState.sampleRate (1 / 10) ∧
    isOkE (generate waves0 () qpow0 soundsOrgan initState
      (Sum.inl "organ") "A" 4 (1 / 10)).1 = true :=
  c9_envelope_boundary waves0 () qpow0 soundsOrgan initState (Sum.inl "organ") "A" 4
    (1 / 10) 0 organProfile 440 rfl rfl rfl
    (by norm_num [initState]) (by norm_num [initState])
    (by norm_num) (by norm_num [initState])
    (by norm_num [organProfile]) (by norm_num [organProfile, initState])

/-- C9 counterexample: the claim as stated quantifies over every positive
duration, but at 50000 s and 44100 Hz the 32-bit wrap of
`(sampleRate * duration) | 0` makes the decay sample count negative and
`generate` throws (a negative `ArrayBuffer` size) instead of returning a WAV
buffer. -/
theorem c9_counterexample :
    decaySamples 44100 50000 < 0 ∧
    generate waves0 () qpow0 soundsOrgan initState (Sum.inl "organ") "A" 4 50000 =
      (.error .rangeError, initState) := by
  have hds : decaySamples 44100 50000 = -2089967296 := by
    norm_num [decaySamples, toInt32Q, qtrunc, wrap32]
  have hfs : findSound soundsOrgan (Sum.inl "organ") = some 0 := rfl
  have hgp : soundsOrgan.get? 0 = some organProfile := rfl
  have hnt : notesTable "A" = some (440 : ℚ) := rfl
  have hoct : clampOctave 4 = 4 := by decide
  have hdur : defDuration (50000 : ℚ) = 50000 := by norm_num [defDuration]
  have hrn : renderNote (waves0 0) () qpow0 organProfile 44100 32767 440 4 50000 =
      .error .rangeError := by
    simp only [renderNote, hds]
    norm_num
  refine ⟨by omega, ?_⟩
  simp only [generate, hfs, hgp, hnt, hoct, hdur, initState, emptyCache, hrn]

/-- C3: in the timeline assembler, each note whose start time exceeds the
running cursor by `gap > 0` gets exactly `floor(gap * 44100)` zero-valued
16-bit samples (as `2 * floor(gap * 44100)` zero bytes) appended before its
PCM, a non-positive gap inserts no silence, and two notes
{startTime 0, duration 1} and {startTime 3, duration 1} produce exactly
`2 * 44100` zero samples between the two rendered note bodies. -/
theorem c3_gap_insertion (gen : SynthNote → Bytes) :
    (∀ (n : SynthNote) (cursor : ℚ) (bufs : List Bytes), 0 < n.time - cursor →
        assembleStep gen (bufs, cursor) n =
          (bufs ++ [List.replicate ((⌊(n.time - cursor) * 44100⌋).toNat * 2) 0,
            extractPCM (gen n)], n.time + n.duration)) ∧
    (∀ (n : SynthNote) (cursor : ℚ) (bufs : List Bytes), n.time - cursor ≤ 0 →
        assembleStep gen (bufs, cursor) n =
          (bufs ++ [extractPCM (gen n)], n.time + n.duration)) ∧
    (∀ (s1 s2 : String) (o1 o2 : ℤ),
        synthPCM gen [⟨s1, o1, 1, 0⟩, ⟨s2, o2, 1, 3⟩] =
          extractPCM (gen ⟨s1, o1, 1, 0⟩) ++ List.replicate (2 * 44100 * 2) 0 ++
            extractPCM (gen ⟨s2, o2, 1, 3⟩)) := by
  refine ⟨?_, ?_, ?_⟩
  · intro n cursor bufs hgap
    simp only [assembleStep, generateSilence, if_pos hgap]
    simp [List.append_assoc]
  · intro n cursor bufs hgap
    simp only [assembleStep, if_neg (not_lt.2 hgap)]
  · intro s1 s2 o1 o2
    simp only [synthPCM, sortByTime, insertByTime]
    norm_num
    simp only [List.foldl_cons, List.foldl_nil, assembleStep, generateSilence]
    norm_num
    decide

/-- C4: the assembler orders notes by ascending start time with a stable
sort, not by input order: inputs with start times [2, 0, 1] (durations 1)
assemble to the 0-note's body, then directly (no silence) the 1-note's body,
then directly the 2-note's body; and two notes with equal start time 0 keep
their input order. -/
theorem c4_timeline_ordering (gen : SynthNote → Bytes) :
    (∀ (s1 s2 s3 : String) (o1 o2 o3 : ℤ),
        synthPCM gen [⟨s1, o1, 1, 2⟩, ⟨s2, o2, 1, 0⟩, ⟨s3, o3, 1, 1⟩] =
          extractPCM (gen ⟨s2, o2, 1, 0⟩) ++ extractPCM (gen ⟨s3, o3, 1, 1⟩) ++
            extractPCM (gen ⟨s1, o1, 1, 2⟩)) ∧
    (∀ (s1 s2 : String) (o1 o2 : ℤ),
        synthPCM gen [⟨s1, o1, 1, 0⟩, ⟨s2, o2, 1, 0⟩] =
          extractPCM (gen ⟨s1, o1, 1, 0⟩) ++ extractPCM (gen ⟨s2, o2, 1, 0⟩)) := by
  constructor
  · intro s1 s2 s3 o1 o2 o3
    simp only [synthPCM, sortByTime, insertByTime]
    norm_num
    simp only [List.foldl_cons, List.foldl_nil, assembleStep]
    norm_num
  · intro s1 s2 o1 o2
    simp only [synthPCM, sortByTime, insertByTime]
    norm_num
    simp only [List.foldl_cons, List.foldl_nil, assembleStep]
    norm_num

/-- C3 witness: the gap law at concrete inputs — silence bytes for gap 2 at
cursor 1, no silence for gap 0, and the two-note timeline with 2·44100 zero
samples between the bodies. -/
theorem c3_witness :
    assembleStep genW ([], 1) ⟨"C", 4, 1, 3⟩ =
      ([List.replicate 176400 0, List.replicate 6 7], (4 : ℚ)) ∧
    assembleStep genW ([], 1) ⟨"C", 4, 1, 1⟩ = ([List.replicate 6 7], (2 : ℚ)) ∧
    synthPCM genW [⟨"C", 4, 1, 0⟩, ⟨"D", 4, 1, 3⟩] =
      List.replicate 6 7 ++ List.replicate (2 * 44100 * 2) 0 ++ List.replicate 6 7 := by
  have hpcm : ∀ x : SynthNote, extractPCM (genW x) = List.replicate 6 7 := fun _ => rfl
  have h := c3_gap_insertion genW
  refine ⟨?_, ?_, ?_⟩
  · have h1 := h.1 ⟨"C", 4, 1, 3⟩ 1 [] (by norm_num)
    rw [h1, hpcm]
    norm_num
    decide
  · have h2 := h.2.1 ⟨"C", 4, 1, 1⟩ 1 [] (by norm_num)
    rw [h2, hpcm]
    norm_num
  · have h3 := h.2.2 "C" "D" 4 4
    rw [h3, hpcm, hpcm]

/-- C7 (amended): the piano profile's wave function, at each sample, computes
the square of the fundamental modulation plus 0.75 times a 0.25-shifted
fundamental plus 0.1 times a 0.5-shifted fundamental, and passes that sum
through the second modulation slot (index 1) — whose sine argument carries the
same 2π frequency multiplier as the fundamental, not twice it. -/
theorem c7_piano_wave (sin : ℚ → ℚ) (pi i s f : ℚ) :
    pianoWave sin pi i s f =
      sin (2 * pi * (i / s * f) +
        (sin (2 * pi * (i / s) * f + 0) ^ 2 + 3 / 4 * sin (2 * pi * (i / s) * f + 1 / 4) +
          1 / 10 * sin (2 * pi * (i / s) * f + 1 / 2))) ∧
    (∀ x : ℚ, modArg1 pi i s f x = modArgInit pi i s f x) := by
  constructor
  · simp [pianoWave, modList, modArgInit, modArg1, List.getD]
  · intro x
    rw [modArg1, modArgInit]
    ring

/-- C7 counterexample: the claim says modulation slot 1 evaluates a sine at
twice the fundamental's frequency multiplier; at (π-stand-in, i, s, f, x) =
(1, 1, 1, 1, 0) the slot-1 sine argument is 2 while the claimed doubled
argument is 4. -/
theorem c7_counterexample :
    modArg1 1 1 1 1 0 = 2 ∧ specPianoDoubledArg 1 1 1 1 0 = 4 ∧ (2 : ℚ) ≠ 4 :=
  ⟨by norm_num [modArg1], by norm_num [specPianoDoubledArg], by norm_num⟩
